import Mathlib

/-
Shallow embedding of the git-sync repository (cmd/git-sync): the sync engine
(`sync`, `cloneRepo`, `hashForRev`, `revIsHash`, `getRevs`,
`addWorktreeAndSwap`), the publish swapper (`updateSymlink`), the remote
resolution helper (`remoteHashForRef`) and the supervision loop of `main`.

External operations (os.Stat, filepath.EvalSymlinks, exec'd commands,
os.RemoveAll, ioutil.WriteFile) are supplied by a `World` oracle; each embedded
function returns its Go result together with the list of external effects it
attempted, in order, so that ordering and mutation properties can be stated.
-/

namespace GitSync

/-- Split a list of characters at every occurrence of `sep`; the accumulator
holds the current component reversed. -/
def splitOnCharAux (sep : Char) : List Char → List Char → List String
  | [], cur => [cur.reverse.asString]
  | c :: cs, cur =>
    if c = sep then cur.reverse.asString :: splitOnCharAux sep cs []
    else splitOnCharAux sep cs (c :: cur)

/-- Model of Go `strings.Split(s, sep)` for a one-character separator. -/
def splitOnChar (sep : Char) (s : String) : List String :=
  splitOnCharAux sep s.toList []

/-- Join strings with a slash between consecutive elements. -/
def joinSlash : List String → String
  | [] => ""
  | [x] => x
  | x :: y :: xs => x ++ "/" ++ joinSlash (y :: xs)

/-- Whether a path is absolute, i.e. begins with a slash. -/
def isRooted (p : String) : Bool :=
  match p.toList with
  | [] => false
  | c :: _ => c = '/'

/-- Model of Go `path.Clean` segment processing: walk the components, dropping
empty and "." components and resolving ".." lexically. `rooted` tells whether
the original path was absolute. The accumulator holds the output components in
reverse order. -/
def goCleanAux (rooted : Bool) : List String → List String → List String
  | acc, [] => acc.reverse
  | acc, c :: cs =>
    if c = "" ∨ c = "." then goCleanAux rooted acc cs
    else if c = ".." then
      match acc with
      | [] => if rooted then goCleanAux rooted [] cs else goCleanAux rooted [".."] cs
      | a :: rest =>
        if a = ".." then goCleanAux rooted (c :: a :: rest) cs
        else goCleanAux rooted rest cs
    else goCleanAux rooted (c :: acc) cs

/-- Model of Go `path.Clean`. -/
def goClean (p : String) : String :=
  if p = "" then "."
  else
    let rooted := isRooted p
    let comps := goCleanAux rooted [] (splitOnChar '/' p)
    let joined := joinSlash comps
    if rooted then "/" ++ joined
    else if joined = "" then "." else joined

/-- Model of Go `path.Join` for two elements: join the non-empty elements with
a slash and clean the result; all empty yields the empty string. -/
def pathJoin (a b : String) : String :=
  if a = "" then (if b = "" then "" else goClean b)
  else if b = "" then goClean a
  else goClean (a ++ "/" ++ b)

/-- Non-empty slash-separated components of a cleaned path. -/
def pathSegs (p : String) : List String :=
  (splitOnChar '/' p).filter (fun c => c ≠ "")

/-- Drop the longest common leading run of two component lists, returning the
two remainders. -/
def dropCommon : List String → List String → List String × List String
  | [], bs => ([], bs)
  | as, [] => (as, [])
  | a :: as, b :: bs => if a = b then dropCommon as bs else (a :: as, b :: bs)

/-- Model of Go `filepath.Rel(base, targ)` on slash-separated paths: clean both,
fail when exactly one is rooted or when the leftover base components contain
"..", otherwise climb out of the leftover base components and descend into the
leftover target components. -/
def filepathRel (base targ : String) : Except String String :=
  let b := goClean base
  let t := goClean targ
  if b = t then Except.ok "."
  else if isRooted b ≠ isRooted t then
    Except.error "Rel: cannot make relative"
  else
    let bsegs := if b = "." then [] else pathSegs b
    let tsegs := if t = "." then [] else pathSegs t
    let (brest, trest) := dropCommon bsegs tsegs
    if brest.contains ".." then Except.error "Rel: cannot make relative"
    else
      let ups := brest.map (fun _ => "..")
      Except.ok (joinSlash (ups ++ trest))

/-- Model of Go `strings.Trim(s, "\n")`: strip leading and trailing newline
characters. -/
def goTrimNewline (s : String) : String :=
  (((s.toList.dropWhile (fun c => c = '\n')).reverse.dropWhile
      (fun c => c = '\n')).reverse).asString

/-- Model of Go `strings.HasPrefix(s, pre)`: character-level test. -/
def hasPrefixGo (s pre : String) : Bool :=
  pre.toList.isPrefixOf s.toList

/-- Outcome of `os.Stat` as the code distinguishes it: success,
`os.IsNotExist`, or any other error. -/
inductive StatRes
  | found
  | notExist
  | err
  deriving DecidableEq, Repr

/-- Outcome of `filepath.EvalSymlinks` as the code distinguishes it: the
resolved directory, an `os.IsNotExist` error (after which the code continues
with the empty string), or any other error. -/
inductive EvalRes
  | resolved (dir : String)
  | notExist
  | err
  deriving DecidableEq, Repr

/-- Oracle for every external operation the program performs. `runCmd` takes
the working directory, the command name and its arguments and yields `some
output` on success and `none` on failure, mirroring `exec.CombinedOutput`. -/
structure World where
  stat : String → StatRes
  evalSymlinks : String → EvalRes
  runCmd : String → String → List String → Option String
  removeAll : String → Bool
  writeFile : String → String → Bool

/-- One attempted external effect, with the working directory, the operation,
and whether it succeeded. -/
inductive Eff
  | cmd (cwd : String) (command : String) (args : List String) (ok : Bool)
  | removeAll (p : String) (ok : Bool)
  | writeFile (p : String) (ok : Bool)
  deriving DecidableEq, Repr

/-- Embedding of `runCommand(cwd, command, args...)` from osutil.go: run the
command through the oracle, recording the attempt. -/
def runCommand (w : World) (cwd command : String) (args : List String) :
    Except String String × List Eff :=
  match w.runCmd cwd command args with
  | some out => (Except.ok out, [Eff.cmd cwd command args true])
  | none => (Except.error ("error running command: " ++ command),
      [Eff.cmd cwd command args false])

/-- Embedding of `updateSymlink(gitRoot, link, newDir)` from osutil.go:
record the currently linked directory (tolerating absence), compute the
relative path of the new directory, create `tmp-link` with `ln -snf`, rename
it onto `link` with `mv -T`, and only then remove the previous directory and
prune worktree metadata. -/
def updateSymlink (w : World) (gitRoot link newDir : String) :
    Except String Unit × List Eff :=
  match w.evalSymlinks (pathJoin gitRoot link) with
  | EvalRes.err => (Except.error "error accessing symlink", [])
  | ev =>
    let currentDir : String := match ev with
      | EvalRes.resolved d => d
      | _ => ""
    match filepathRel gitRoot newDir with
    | Except.error _ => (Except.error "error converting to relative path", [])
    | Except.ok newDirRelative =>
      match runCommand w gitRoot "ln" ["-snf", newDirRelative, "tmp-link"] with
      | (Except.error _, t1) => (Except.error "error creating symlink", t1)
      | (Except.ok _, t1) =>
        match runCommand w gitRoot "mv" ["-T", "tmp-link", link] with
        | (Except.error _, t2) => (Except.error "error replacing symlink", t1 ++ t2)
        | (Except.ok _, t2) =>
          if currentDir.length > 0 then
            if w.removeAll currentDir then
              match runCommand w gitRoot "git" ["worktree", "prune"] with
              | (Except.error e, t3) =>
                  (Except.error e, t1 ++ t2 ++ [Eff.removeAll currentDir true] ++ t3)
              | (Except.ok _, t3) =>
                  (Except.ok (), t1 ++ t2 ++ [Eff.removeAll currentDir true] ++ t3)
            else
              (Except.error "error removing directory",
                t1 ++ t2 ++ [Eff.removeAll currentDir false])
          else (Except.ok (), t1 ++ t2)

/-- Embedding of the `SyncOption` configuration struct (the fields the sync
engine reads; authentication fields and the poll interval are consumed only by
the excluded collaborators). -/
structure SyncOption where
  Repo : String
  Branch : String
  Rev : String
  Depth : Int
  Root : String
  Dest : String
  OneTime : Bool
  MaxSyncFailures : Int
  Chmod : Int
  deriving Repr

/-- Embedding of `remoteHashForRef(ref, gitRoot)`: run
`git ls-remote -q origin ref` and return the text before the first tab of its
output. -/
def remoteHashForRef (w : World) (ref gitRoot : String) :
    Except String String × List Eff :=
  match runCommand w gitRoot "git" ["ls-remote", "-q", "origin", ref] with
  | (Except.error e, t) => (Except.error e, t)
  | (Except.ok out, t) => (Except.ok ((splitOnChar '\t' out).headD ""), t)

/-- Embedding of `(o *SyncOption) cloneRepo()`: `git clone --no-checkout -b
branch [--depth n] repo root`, run with no working-directory override. -/
def cloneRepo (w : World) (o : SyncOption) : Except String Unit × List Eff :=
  let args0 := ["clone", "--no-checkout", "-b", o.Branch]
  let args1 := if o.Depth ≠ 0 then args0 ++ ["--depth", toString o.Depth] else args0
  let args := args1 ++ [o.Repo, o.Root]
  match runCommand w "" "git" args with
  | (Except.error e, t) => (Except.error e, t)
  | (Except.ok _, t) => (Except.ok (), t)

/-- Embedding of `(o *SyncOption) hashForRev(rev)`: `git rev-list -n1 rev` in
the root, with surrounding newlines trimmed from the output. -/
def hashForRev (w : World) (o : SyncOption) (rev : String) :
    Except String String × List Eff :=
  match runCommand w o.Root "git" ["rev-list", "-n1", rev] with
  | (Except.error e, t) => (Except.error e, t)
  | (Except.ok out, t) => (Except.ok (goTrimNewline out), t)

/-- Embedding of `(o *SyncOption) revIsHash(rev)`: resolve `rev` locally and
test whether the resolved output has `rev` as a literal prefix. -/
def revIsHash (w : World) (o : SyncOption) (rev : String) :
    Except String Bool × List Eff :=
  match hashForRev w o rev with
  | (Except.error e, t) => (Except.error e, t)
  | (Except.ok out, t) => (Except.ok (hasPrefixGo out rev), t)

/-- The ref that `getRevs` asks the remote about, built from the configured
revision and branch: `refs/heads/<branch>` when the configured rev is "HEAD",
otherwise the annotated-tag dereference `refs/tags/<rev>^\x7b\x7d`. -/
def getRevsRef (o : SyncOption) : String :=
  if o.Rev = "HEAD" then "refs/heads/" ++ o.Branch
  else "refs/tags/" ++ o.Rev ++ "^\x7b\x7d"

/-- Embedding of `(o *SyncOption) getRevs(rev)`: resolve `rev` locally, then
resolve the tracking ref (built from `o.Rev`, not from the argument) against
the remote. -/
def getRevs (w : World) (o : SyncOption) (rev : String) :
    Except String (String × String) × List Eff :=
  match hashForRev w o rev with
  | (Except.error e, t) => (Except.error e, t)
  | (Except.ok lcl, t1) =>
    match remoteHashForRef w (getRevsRef o) o.Root with
    | (Except.error e, t2) => (Except.error e, t1 ++ t2)
    | (Except.ok remote, t2) => (Except.ok (lcl, remote), t1 ++ t2)

/-- Embedding of `(o *SyncOption) addWorktreeAndSwap(hash)`: fetch, add a
worktree at `root/rev-<hash>`, rewrite its `.git` back-reference relative to
the root, hard-reset it to the hash, optionally chmod it, then call
`updateSymlink`. -/
def addWorktreeAndSwap (w : World) (o : SyncOption) (hash : String) :
    Except String Unit × List Eff :=
  match runCommand w o.Root "git" ["fetch", "--tags", "origin", o.Branch] with
  | (Except.error e, t) => (Except.error e, t)
  | (Except.ok _, t1) =>
    let worktreePath := pathJoin o.Root ("rev-" ++ hash)
    match runCommand w o.Root "git"
        ["worktree", "add", worktreePath, "origin/" ++ o.Branch] with
    | (Except.error e, t2) => (Except.error e, t1 ++ t2)
    | (Except.ok _, t2) =>
      match filepathRel o.Root worktreePath with
      | Except.error e => (Except.error e, t1 ++ t2)
      | Except.ok worktreePathRelative =>
        let gitDirRef :=
          pathJoin "gitdir: ../.git/worktrees" worktreePathRelative ++ "\n"
        let dotGitPath := pathJoin worktreePath ".git"
        if w.writeFile dotGitPath gitDirRef then
          match runCommand w worktreePath "git" ["reset", "--hard", hash] with
          | (Except.error e, t3) =>
              (Except.error e, t1 ++ t2 ++ [Eff.writeFile dotGitPath true] ++ t3)
          | (Except.ok _, t3) =>
            let t123 := t1 ++ t2 ++ [Eff.writeFile dotGitPath true] ++ t3
            if o.Chmod ≠ 0 then
              match runCommand w "" "chmod" ["-R", toString o.Chmod, worktreePath] with
              | (Except.error e, t4) => (Except.error e, t123 ++ t4)
              | (Except.ok _, t4) =>
                let r := updateSymlink w o.Root o.Dest worktreePath
                (r.1, t123 ++ t4 ++ r.2)
            else
              let r := updateSymlink w o.Root o.Dest worktreePath
              (r.1, t123 ++ r.2)
        else
          (Except.error "error writing worktree .git file",
            t1 ++ t2 ++ [Eff.writeFile dotGitPath false])

/-- The path whose existence `sync` probes to decide between the first-run
clone path and the steady-state comparison: `path.Join(o.Repo, o.Dest, ".git")`
as written in the source. -/
def syncProbePath (o : SyncOption) : String :=
  pathJoin (pathJoin o.Repo o.Dest) ".git"

/-- Embedding of `(o *SyncOption) sync()`: stat the probe path; if it does not
exist, clone and resolve the configured rev locally; if the stat errs
otherwise, fail; else compare local and remote hashes and return nil when they
agree. Any remaining case builds and publishes via `addWorktreeAndSwap`. -/
def sync (w : World) (o : SyncOption) : Except String Unit × List Eff :=
  match w.stat (syncProbePath o) with
  | StatRes.notExist =>
    match cloneRepo w o with
    | (Except.error e, t) => (Except.error e, t)
    | (Except.ok _, t1) =>
      match hashForRev w o o.Rev with
      | (Except.error e, t2) => (Except.error e, t1 ++ t2)
      | (Except.ok hash, t2) =>
        let r := addWorktreeAndSwap w o hash
        (r.1, t1 ++ t2 ++ r.2)
  | StatRes.err => (Except.error "error checking if repo exists", [])
  | StatRes.found =>
    match getRevs w o o.Rev with
    | (Except.error e, t) => (Except.error e, t)
    | (Except.ok lr, t1) =>
      if lr.1 ≠ lr.2 then
        let r := addWorktreeAndSwap w o lr.2
        (r.1, t1 ++ r.2)
      else (Except.ok (), t1)

/-- The mutable state of `main`'s supervision loop: the `initialSync` flag and
the consecutive-failure counter. -/
structure LoopState where
  initialSync : Bool
  failCount : Int
  deriving DecidableEq, Repr

/-- The state `main` starts its loop with. -/
def loopStart : LoopState := { initialSync := true, failCount := 0 }

/-- Decidable equality for `Except`, needed to evaluate results of the
embedded operations on concrete inputs. -/
def exceptDecEq {ε α : Type} [DecidableEq ε] [DecidableEq α] :
    DecidableEq (Except ε α)
  | Except.error e, Except.error e' =>
    if h : e = e' then Decidable.isTrue (by rw [h])
    else Decidable.isFalse (by intro hh; cases hh; exact h rfl)
  | Except.error _, Except.ok _ => Decidable.isFalse (by intro hh; cases hh)
  | Except.ok _, Except.error _ => Decidable.isFalse (by intro hh; cases hh)
  | Except.ok a, Except.ok a' =>
    if h : a = a' then Decidable.isTrue (by rw [h])
    else Decidable.isFalse (by intro hh; cases hh; exact h rfl)

instance {ε α : Type} [DecidableEq ε] [DecidableEq α] : DecidableEq (Except ε α) :=
  exceptDecEq

/-- The environment-determined inputs of one loop iteration: whether
`cliOpts.sync()` failed, and what `revIsHash` would answer if consulted. -/
structure IterIn where
  syncFails : Bool
  revHash : Except Unit Bool
  deriving DecidableEq, Repr

/-- How one loop iteration of `main` ends: `os.Exit(1)`, `os.Exit(0)` on the
one-time path, parking in `sleepForever` (which waits for a termination signal
and then exits with status 0), or continuing the loop in a new state. -/
inductive LoopRes
  | exitFailure
  | exitSuccess
  | park
  | running (s : LoopState)
  deriving DecidableEq, Repr

/-- Embedding of one iteration of `main`'s loop: on a sync error, exit when
still in the initial sync or when `failCount >= MaxSyncFailures`, otherwise
bump the counter, wait and retry; on success during the initial sync consult
`revIsHash` (exiting on its error, parking when it reports true, exiting with
status 0 when the one-time flag is set), then clear the counter and continue.
The second component records whether `revIsHash` was consulted. -/
def mainStep (maxSyncFailures : Int) (oneTime : Bool) (s : LoopState)
    (i : IterIn) : LoopRes × Bool :=
  if i.syncFails then
    if s.initialSync || s.failCount ≥ maxSyncFailures then (LoopRes.exitFailure, false)
    else (LoopRes.running { initialSync := s.initialSync, failCount := s.failCount + 1 },
      false)
  else
    if s.initialSync then
      match i.revHash with
      | Except.error _ => (LoopRes.exitFailure, true)
      | Except.ok true => (LoopRes.park, true)
      | Except.ok false =>
        if oneTime then (LoopRes.exitSuccess, true)
        else (LoopRes.running { initialSync := false, failCount := 0 }, true)
    else (LoopRes.running { initialSync := false, failCount := 0 }, false)

/-- Iterate `mainStep` over a list of per-iteration inputs, counting how many
times `revIsHash` was consulted; a run that exhausts its inputs is still
`running`. -/
def runLoop (maxSyncFailures : Int) (oneTime : Bool) :
    LoopState → List IterIn → LoopRes × Nat
  | s, [] => (LoopRes.running s, 0)
  | s, i :: rest =>
    match mainStep maxSyncFailures oneTime s i with
    | (LoopRes.running s', c) =>
      let r := runLoop maxSyncFailures oneTime s' rest
      (r.1, (if c then 1 else 0) + r.2)
    | (r, c) => (r, if c then 1 else 0)

/-- A set of existing filesystem paths, for interpreting the effect trace of a
run. -/
structure FsState where
  existing : List String
  deriving DecidableEq, Repr

/-- Modelled from the behavior of the external tools the program invokes: the
paths each successful effect creates or removes. `git clone` creates the
destination and its `.git`; `git worktree add` creates the worktree directory;
`ln -snf` creates the named link in the working directory; `mv -T` removes the
source name and creates the destination name; `os.RemoveAll` removes a path
and everything below it; writing a file creates its path. Commands that only
change file contents or repository-internal metadata leave the path set
unchanged, and failed effects change nothing. -/
def applyEff (s : FsState) : Eff → FsState
  | Eff.cmd cwd command args okFlag =>
    if okFlag = false then s else
    if command = "git" ∧ args.headD "" = "clone" then
      match args.getLast? with
      | some dest => { existing := s.existing ++ [dest, pathJoin dest ".git"] }
      | none => s
    else if command = "git" ∧ args.headD "" = "worktree" ∧
        (args.drop 1).headD "" = "add" then
      match (args.drop 2).headD "" with
      | p => { existing := s.existing ++ [p] }
    else if command = "ln" then
      match args.getLast? with
      | some name => { existing := s.existing ++ [pathJoin cwd name] }
      | none => s
    else if command = "mv" ∧ args.length = 3 then
      let src := pathJoin cwd ((args.drop 1).headD "")
      let dst := pathJoin cwd ((args.drop 2).headD "")
      { existing := (s.existing.filter (fun q => q ≠ src)) ++ [dst] }
    else s
  | Eff.removeAll p okFlag =>
    if okFlag then
      { existing := s.existing.filter
          (fun q => ¬ (q = p ∨ (p ++ "/").toList.isPrefixOf q.toList)) }
    else s
  | Eff.writeFile p okFlag =>
    if okFlag then { existing := s.existing ++ [p] } else s

/-- Fold an effect trace over a filesystem state. -/
def applyTrace (s : FsState) (tr : List Eff) : FsState :=
  tr.foldl applyEff s

/-- Whether an effect is a `git clone` invocation. -/
def isCloneCmd : Eff → Bool
  | Eff.cmd _ command args _ => command == "git" && args.headD "" == "clone"
  | _ => false

/-- Whether an effect is a `git ls-remote` invocation, i.e. a query of the
remote. -/
def isLsRemoteCmd : Eff → Bool
  | Eff.cmd _ command args _ => command == "git" && args.headD "" == "ls-remote"
  | _ => false

/-- Whether an effect is the successful rename of the temporary link onto the
publication pointer `link` (`mv -T tmp-link link`). -/
def isSwapOk (link : String) : Eff → Bool
  | Eff.cmd _ command args okFlag =>
      command == "mv" && args == ["-T", "tmp-link", link] && okFlag
  | _ => false

/-- Whether an effect is part of retiring the previous worktree: a recursive
removal, or a `git worktree prune`. -/
def isCleanupEff : Eff → Bool
  | Eff.removeAll _ _ => true
  | Eff.cmd _ command args _ => command == "git" && args == ["worktree", "prune"]
  | _ => false

/-- Scan a trace in order: `true` when no cleanup effect occurs before the
first successful rename onto `link` (effects after that rename are
unconstrained). -/
def noCleanupUntilSwap (link : String) : List Eff → Bool
  | [] => true
  | e :: rest =>
    if isSwapOk link e then true
    else if isCleanupEff e then false
    else noCleanupUntilSwap link rest

/-- Concrete configuration for the two-invocation scenario: a filesystem-path
remote so that Go path operations act on it uniformly. -/
def oSc : SyncOption :=
  { Repo := "/remote/origin", Branch := "master", Rev := "HEAD", Depth := 0,
    Root := "/git", Dest := "app", OneTime := false, MaxSyncFailures := 0,
    Chmod := 0 }

/-- Modelled from the behavior of git for the scenario remote whose
`refs/heads/master` resolves to `aaaa` throughout (the remote does not change
between the two invocations): outcomes of every command the engine may run.
`cloneOk` distinguishes the first invocation (the root directory is empty, so
`git clone` into it succeeds) from the second (the root now holds the clone,
so `git clone` into it fails). All other commands behave identically in both
invocations. -/
def scRunCmd (cloneOk : Bool) (cwd command : String) (args : List String) :
    Option String :=
  if command = "git" ∧ args.headD "" = "clone" then
    (if cloneOk then some "" else none)
  else if cwd = "/git" ∧ command = "git" ∧ args = ["rev-list", "-n1", "HEAD"] then
    some "aaaa\n"
  else if cwd = "/git" ∧ command = "git" ∧
      args = ["ls-remote", "-q", "origin", "refs/heads/master"] then
    some "aaaa\trefs/heads/master\n"
  else if cwd = "/git" ∧ command = "git" ∧
      args = ["fetch", "--tags", "origin", "master"] then some ""
  else if cwd = "/git" ∧ command = "git" ∧
      args = ["worktree", "add", "/git/rev-aaaa", "origin/master"] then some ""
  else if cwd = "/git/rev-aaaa" ∧ command = "git" ∧
      args = ["reset", "--hard", "aaaa"] then some ""
  else if cwd = "/git" ∧ command = "ln" ∧
      args = ["-snf", "rev-aaaa", "tmp-link"] then some ""
  else if cwd = "/git" ∧ command = "mv" ∧ args = ["-T", "tmp-link", "app"] then
    some ""
  else if cwd = "/git" ∧ command = "git" ∧ args = ["worktree", "prune"] then
    some ""
  else none

/-- The filesystem before the first invocation: the remote repository and the
empty root volume directory exist, nothing else. -/
def fsInit : FsState := { existing := ["/remote/origin", "/git"] }

/-- The world of the first invocation: no path beyond `fsInit` exists, the
publication pointer does not exist yet, and every needed command succeeds. -/
def W1 : World :=
  { stat := fun p => if fsInit.existing.contains p then StatRes.found
      else StatRes.notExist,
    evalSymlinks := fun _ => EvalRes.notExist,
    runCmd := scRunCmd true,
    removeAll := fun _ => true,
    writeFile := fun _ _ => true }

/-- The filesystem after the first invocation: `fsInit` updated by the effect
trace of the first `sync`. -/
def fsAfterFirst : FsState := applyTrace fsInit (sync W1 oSc).2

/-- The world of the second invocation: existence queries answer according to
the filesystem left by the first invocation, the publication pointer resolves
to the published worktree, the remote is unchanged (same `scRunCmd` command
model), and `git clone` now fails because the root already holds the clone. -/
def W2 : World :=
  { stat := fun p => if fsAfterFirst.existing.contains p then StatRes.found
      else StatRes.notExist,
    evalSymlinks := fun p => if p = "/git/app" then EvalRes.resolved "/git/rev-aaaa"
      else EvalRes.notExist,
    runCmd := scRunCmd false,
    removeAll := fun _ => true,
    writeFile := fun _ _ => true }

/-- A world in which recording, linking and renaming succeed but the removal
of the previous worktree directory fails. -/
def wCleanupFail : World :=
  { stat := fun _ => StatRes.found,
    evalSymlinks := fun p => if p = "/git/app" then EvalRes.resolved "/git/rev-old"
      else EvalRes.notExist,
    runCmd := fun _ command _ =>
      if command = "ln" ∨ command = "mv" then some "" else none,
    removeAll := fun _ => false,
    writeFile := fun _ _ => true }

/-- A world in which the removal of the previous worktree directory succeeds
but the subsequent `git worktree prune` fails. -/
def wPruneFail : World :=
  { stat := fun _ => StatRes.found,
    evalSymlinks := fun p => if p = "/git/app" then EvalRes.resolved "/git/rev-old"
      else EvalRes.notExist,
    runCmd := fun _ command args =>
      if command = "ln" ∨ command = "mv" then some ""
      else if args = ["worktree", "prune"] then none
      else none,
    removeAll := fun _ => true,
    writeFile := fun _ _ => true }

/-- A world for a fresh publish with no previous pointer, in which `ln` and
`mv` succeed. -/
def wPub : World :=
  { stat := fun _ => StatRes.found,
    evalSymlinks := fun _ => EvalRes.notExist,
    runCmd := fun _ command _ =>
      if command = "ln" ∨ command = "mv" then some "" else none,
    removeAll := fun _ => true,
    writeFile := fun _ _ => true }

/-- A world in which the rename of the temporary link onto the pointer fails. -/
def wSwapFail : World :=
  { stat := fun _ => StatRes.found,
    evalSymlinks := fun _ => EvalRes.notExist,
    runCmd := fun _ command _ => if command = "ln" then some "" else none,
    removeAll := fun _ => true,
    writeFile := fun _ _ => true }

/-- Modelled from the documented behavior of git: `git ls-remote -q origin
<ref>` for a ref absent on the (reachable) remote exits successfully and
prints nothing, so the command oracle answers `some ""`. -/
def wRefMissing : World :=
  { stat := fun _ => StatRes.found,
    evalSymlinks := fun _ => EvalRes.notExist,
    runCmd := fun _ command args =>
      if command = "git" ∧ args.headD "" = "ls-remote" then some "" else none,
    removeAll := fun _ => true,
    writeFile := fun _ _ => true }

/-- A world in which every external command fails, as with an unreachable
remote. -/
def wUnreachable : World :=
  { stat := fun _ => StatRes.found,
    evalSymlinks := fun _ => EvalRes.notExist,
    runCmd := fun _ _ _ => none,
    removeAll := fun _ => true,
    writeFile := fun _ _ => true }

/-- A world in which `git rev-list -n1` answers `abcdef` (with a trailing
newline) in the root `/git`, for exercising local revision resolution. -/
def wLocalHash : World :=
  { stat := fun _ => StatRes.found,
    evalSymlinks := fun _ => EvalRes.notExist,
    runCmd := fun cwd command args =>
      if cwd = "/git" ∧ command = "git" ∧ args.headD "" = "rev-list" then
        some "abcdef\n"
      else if cwd = "/git" ∧ command = "git" ∧ args.headD "" = "ls-remote" then
        some "abcdef\trefs/heads/master\n"
      else none,
    removeAll := fun _ => true,
    writeFile := fun _ _ => true }

/-- A configuration tracking a tag name, for exercising `getRevs` and
`revIsHash` on a non-"HEAD" specifier. -/
def oTag : SyncOption :=
  { Repo := "/remote/origin", Branch := "master", Rev := "v1.0", Depth := 0,
    Root := "/git", Dest := "app", OneTime := false, MaxSyncFailures := 0,
    Chmod := 0 }

/-- A configuration whose revision is a hash prefix of the commit `abcdef`. -/
def oHash : SyncOption :=
  { Repo := "/remote/origin", Branch := "master", Rev := "abc", Depth := 0,
    Root := "/git", Dest := "app", OneTime := false, MaxSyncFailures := 0,
    Chmod := 0 }

/-- Helper: every ln effect in a trace creates the link named `tmp-link` with
target `r`. -/
def lnArgsAre (r : String) : Eff → Bool
  | Eff.cmd _ command args _ =>
    if command = "ln" then args == ["-snf", r, "tmp-link"] else true
  | _ => true

/-- In every run of `updateSymlink`, no retirement effect (directory removal
or worktree prune) occurs before the successful rename of the temporary link
onto the publication pointer. -/
theorem updateSymlink_noCleanupUntilSwap (w : World) (gitRoot link newDir : String) :
    noCleanupUntilSwap link (updateSymlink w gitRoot link newDir).2 = true := by
  unfold updateSymlink
  rcases hev : w.evalSymlinks (pathJoin gitRoot link) with d | _ | _
  · rcases hrel : filepathRel gitRoot newDir with e | r
    · simp [noCleanupUntilSwap]
    · simp only [runCommand]
      rcases hln : w.runCmd gitRoot "ln" ["-snf", r, "tmp-link"] with _ | out1
      · simp [noCleanupUntilSwap, isSwapOk, isCleanupEff]
      · rcases hmv : w.runCmd gitRoot "mv" ["-T", "tmp-link", link] with _ | out2
        · simp [noCleanupUntilSwap, isSwapOk, isCleanupEff]
        · by_cases hd : d.length > 0
          · simp only [hd, if_pos]
            by_cases hrm : w.removeAll d
            · rcases hpr : w.runCmd gitRoot "git" ["worktree", "prune"] with _ | out3
              · simp [noCleanupUntilSwap, isSwapOk, isCleanupEff, hrm]
              · simp [noCleanupUntilSwap, isSwapOk, isCleanupEff, hrm]
            · simp [noCleanupUntilSwap, isSwapOk, isCleanupEff, hrm]
          · simp [noCleanupUntilSwap, isSwapOk, isCleanupEff, hd]
  · rcases hrel : filepathRel gitRoot newDir with e | r
    · simp [noCleanupUntilSwap]
    · simp only [runCommand]
      rcases hln : w.runCmd gitRoot "ln" ["-snf", r, "tmp-link"] with _ | out1
      · simp [noCleanupUntilSwap, isSwapOk, isCleanupEff]
      · rcases hmv : w.runCmd gitRoot "mv" ["-T", "tmp-link", link] with _ | out2
        · simp [noCleanupUntilSwap, isSwapOk, isCleanupEff]
        · simp [noCleanupUntilSwap, isSwapOk, isCleanupEff]
  · simp [noCleanupUntilSwap]

/-- When recording the previous target, creating the temporary link, or
renaming it fails, `updateSymlink` returns an error, having performed no
successful rename onto the pointer and no retirement effect. -/
theorem updateSymlink_failure_untouched (w : World) (gitRoot link newDir : String)
    (hfail : w.evalSymlinks (pathJoin gitRoot link) = EvalRes.err
      ∨ (∃ r, filepathRel gitRoot newDir = Except.ok r ∧
          w.runCmd gitRoot "ln" ["-snf", r, "tmp-link"] = none)
      ∨ w.runCmd gitRoot "mv" ["-T", "tmp-link", link] = none) :
    (updateSymlink w gitRoot link newDir).1.isOk = false
    ∧ (updateSymlink w gitRoot link newDir).2.all
        (fun e => !(isSwapOk link e) && !(isCleanupEff e)) = true := by
  unfold updateSymlink
  rcases hev : w.evalSymlinks (pathJoin gitRoot link) with d | _ | _
  · rcases hrel : filepathRel gitRoot newDir with e | r
    · simp [Except.isOk, Except.toBool]
    · simp only [runCommand]
      rcases hln : w.runCmd gitRoot "ln" ["-snf", r, "tmp-link"] with _ | out1
      · simp [Except.isOk, Except.toBool, isSwapOk, isCleanupEff]
      · rcases hmv : w.runCmd gitRoot "mv" ["-T", "tmp-link", link] with _ | out2
        · simp [Except.isOk, Except.toBool, isSwapOk, isCleanupEff]
        · exfalso
          rcases hfail with h | ⟨r', hrel', hln'⟩ | h
          · rw [hev] at h; cases h
          · rw [hrel] at hrel'; cases hrel'; rw [hln] at hln'; cases hln'
          · rw [hmv] at h; cases h
  · rcases hrel : filepathRel gitRoot newDir with e | r
    · simp [Except.isOk, Except.toBool]
    · simp only [runCommand]
      rcases hln : w.runCmd gitRoot "ln" ["-snf", r, "tmp-link"] with _ | out1
      · simp [Except.isOk, Except.toBool, isSwapOk, isCleanupEff]
      · rcases hmv : w.runCmd gitRoot "mv" ["-T", "tmp-link", link] with _ | out2
        · simp [Except.isOk, Except.toBool, isSwapOk, isCleanupEff]
        · exfalso
          rcases hfail with h | ⟨r', hrel', hln'⟩ | h
          · rw [hev] at h; cases h
          · rw [hrel] at hrel'; cases hrel'; rw [hln] at hln'; cases hln'
          · rw [hmv] at h; cases h
  · simp [Except.isOk, Except.toBool]

/-- C1: in every publish (`updateSymlink gitRoot link newDir`), the previously
published worktree directory is removed and the worktree metadata pruned only
after the temporary link has been successfully renamed onto the publication
pointer; and when recording the previous target, creating the temporary link,
or renaming it fails, `updateSymlink` returns an error having performed no
successful rename onto the pointer and no retirement effect, leaving the
pointer and the previous worktree directory untouched. -/
theorem C1_updateSymlink_retire_after_swap_and_failure_atomic
    (w : World) (gitRoot link newDir : String) :
    noCleanupUntilSwap link (updateSymlink w gitRoot link newDir).2 = true
    ∧ ((w.evalSymlinks (pathJoin gitRoot link) = EvalRes.err
        ∨ (∃ r, filepathRel gitRoot newDir = Except.ok r ∧
            w.runCmd gitRoot "ln" ["-snf", r, "tmp-link"] = none)
        ∨ w.runCmd gitRoot "mv" ["-T", "tmp-link", link] = none) →
      (updateSymlink w gitRoot link newDir).1.isOk = false
      ∧ (updateSymlink w gitRoot link newDir).2.all
          (fun e => !(isSwapOk link e) && !(isCleanupEff e)) = true) :=
  ⟨updateSymlink_noCleanupUntilSwap w gitRoot link newDir,
   fun h => updateSymlink_failure_untouched w gitRoot link newDir h⟩

/-- Witness for C1: in a concrete world where the rename onto the pointer
fails, the publish returns an error and the trace holds no successful swap and
no retirement effect. -/
theorem C1_witness :
    (updateSymlink wSwapFail "/git" "app" "/git/rev-z").1.isOk = false
    ∧ (updateSymlink wSwapFail "/git" "app" "/git/rev-z").2.all
        (fun e => !(isSwapOk "app" e) && !(isCleanupEff e)) = true :=
  (C1_updateSymlink_retire_after_swap_and_failure_atomic wSwapFail "/git" "app"
    "/git/rev-z").2 (Or.inr (Or.inr (by decide)))

/-- C4 counterexample: in a concrete world where the rename onto the pointer
has succeeded and the subsequent removal of the previous worktree directory
fails, `updateSymlink` reports an error to its caller, not success as the
claim states. -/
theorem C4_counterexample :
    (updateSymlink wCleanupFail "/git" "app" "/git/rev-new").1 =
      Except.error "error removing directory" := by decide

/-- C4 (amended): when the rename onto the pointer has succeeded and a cleanup
step then fails (removing the previous worktree directory, or pruning worktree
metadata), `updateSymlink` returns that error — the sync pass is reported as
failed — while the already-performed rename onto the pointer stands: the full
trace shows the successful swap followed only by the failed cleanup attempt,
with no further effect on the pointer. -/
theorem C4_updateSymlink_cleanup_error_propagates (w : World)
    (gitRoot link newDir d r out1 out2 : String)
    (hev : w.evalSymlinks (pathJoin gitRoot link) = EvalRes.resolved d)
    (hd : d.length > 0)
    (hrel : filepathRel gitRoot newDir = Except.ok r)
    (hln : w.runCmd gitRoot "ln" ["-snf", r, "tmp-link"] = some out1)
    (hmv : w.runCmd gitRoot "mv" ["-T", "tmp-link", link] = some out2) :
    (w.removeAll d = false →
      updateSymlink w gitRoot link newDir =
        (Except.error "error removing directory",
          [Eff.cmd gitRoot "ln" ["-snf", r, "tmp-link"] true,
           Eff.cmd gitRoot "mv" ["-T", "tmp-link", link] true,
           Eff.removeAll d false]))
    ∧ (w.removeAll d = true →
        w.runCmd gitRoot "git" ["worktree", "prune"] = none →
      updateSymlink w gitRoot link newDir =
        (Except.error "error running command: git",
          [Eff.cmd gitRoot "ln" ["-snf", r, "tmp-link"] true,
           Eff.cmd gitRoot "mv" ["-T", "tmp-link", link] true,
           Eff.removeAll d true,
           Eff.cmd gitRoot "git" ["worktree", "prune"] false])) := by
  constructor
  · intro hrm
    unfold updateSymlink
    rw [hev, hrel]
    simp only [runCommand, hln, hmv, hrm, hd, if_pos]
    simp
  · intro hrm hpr
    unfold updateSymlink
    rw [hev, hrel]
    simp only [runCommand, hln, hmv, hrm, hpr, hd, if_pos]
    simp

/-- Witness for C4 (amended) at the concrete cleanup-failure world. -/
theorem C4_witness :
    updateSymlink wCleanupFail "/git" "app" "/git/rev-new" =
      (Except.error "error removing directory",
        [Eff.cmd "/git" "ln" ["-snf", "rev-new", "tmp-link"] true,
         Eff.cmd "/git" "mv" ["-T", "tmp-link", "app"] true,
         Eff.removeAll "/git/rev-old" false]) :=
  (C4_updateSymlink_cleanup_error_propagates wCleanupFail "/git" "app"
    "/git/rev-new" "/git/rev-old" "rev-new" "" "" (by decide) (by decide)
    (by decide) (by decide) (by decide)).1 (by decide)

/-- C8 counterexample: two distinct publish invocations both create their
temporary link under the same fixed name `tmp-link`, so the temporary link is
not uniquely named per invocation. -/
theorem C8_counterexample :
    (updateSymlink wPub "/git" "app" "/git/rev-x").2 =
      [Eff.cmd "/git" "ln" ["-snf", "rev-x", "tmp-link"] true,
       Eff.cmd "/git" "mv" ["-T", "tmp-link", "app"] true]
    ∧ (updateSymlink wPub "/git" "app" "/git/rev-y").2 =
      [Eff.cmd "/git" "ln" ["-snf", "rev-y", "tmp-link"] true,
       Eff.cmd "/git" "mv" ["-T", "tmp-link", "app"] true] := by decide

/-- C8 (amended): in every publish the temporary link is created under the
fixed name `tmp-link` (the same name in every invocation), and it points at
the new worktree via the path `filepath.Rel(gitRoot, newDir)` — the worktree
path expressed relative to the shared root — rather than the absolute path.
The link creation is the first effect of the publish. -/
theorem C8_updateSymlink_tmp_link_fixed_relative (w : World)
    (gitRoot link newDir r : String)
    (hrel : filepathRel gitRoot newDir = Except.ok r)
    (hev : w.evalSymlinks (pathJoin gitRoot link) ≠ EvalRes.err) :
    (updateSymlink w gitRoot link newDir).2.head? =
      some (Eff.cmd gitRoot "ln" ["-snf", r, "tmp-link"]
        (w.runCmd gitRoot "ln" ["-snf", r, "tmp-link"]).isSome)
    ∧ (updateSymlink w gitRoot link newDir).2.all (lnArgsAre r) = true := by
  unfold updateSymlink
  rcases hevv : w.evalSymlinks (pathJoin gitRoot link) with d | _ | _
  · rw [hrel]
    simp only [runCommand]
    rcases hln : w.runCmd gitRoot "ln" ["-snf", r, "tmp-link"] with _ | out1
    · simp [lnArgsAre]
    · rcases hmv : w.runCmd gitRoot "mv" ["-T", "tmp-link", link] with _ | out2
      · simp [lnArgsAre]
      · by_cases hd : d.length > 0
        · simp only [hd, if_pos]
          by_cases hrm : w.removeAll d
          · rcases hpr : w.runCmd gitRoot "git" ["worktree", "prune"] with _ | out3
            · simp [lnArgsAre, hrm]
            · simp [lnArgsAre, hrm]
          · simp [lnArgsAre, hrm]
        · simp [lnArgsAre, hd]
  · rw [hrel]
    simp only [runCommand]
    rcases hln : w.runCmd gitRoot "ln" ["-snf", r, "tmp-link"] with _ | out1
    · simp [lnArgsAre]
    · rcases hmv : w.runCmd gitRoot "mv" ["-T", "tmp-link", link] with _ | out2
      · simp [lnArgsAre]
      · simp [lnArgsAre]
  · exact absurd hevv hev

/-- Witness for C8 (amended) at a concrete fresh publish. -/
theorem C8_witness :
    (updateSymlink wPub "/git" "app" "/git/rev-x").2.head? =
      some (Eff.cmd "/git" "ln" ["-snf", "rev-x", "tmp-link"]
        (wPub.runCmd "/git" "ln" ["-snf", "rev-x", "tmp-link"]).isSome)
    ∧ (updateSymlink wPub "/git" "app" "/git/rev-x").2.all (lnArgsAre "rev-x") = true :=
  C8_updateSymlink_tmp_link_fixed_relative wPub "/git" "app" "/git/rev-x" "rev-x"
    (by decide) (by decide)

/-- C2: evaluation of `sync` at the failing state. The `.git` marker of the
cloned local copy lives under the configured root (`/git/.git`, present in
this world), but `sync` probes `path.Join(o.Repo, o.Dest, ".git")`
(`/remote/origin/app/.git`, absent), so it takes the first-run clone path —
issuing `git clone` and never querying the remote for the comparison — even
though the local copy exists. -/
theorem C2_sync_probes_repo_not_root :
    syncProbePath oSc = "/remote/origin/app/.git"
    ∧ pathJoin oSc.Root ".git" = "/git/.git"
    ∧ W2.stat (pathJoin oSc.Root ".git") = StatRes.found
    ∧ W2.stat (syncProbePath oSc) = StatRes.notExist
    ∧ (sync W2 oSc).2.any isCloneCmd = true
    ∧ (sync W2 oSc).2.all (fun e => !(isLsRemoteCmd e)) = true := by decide

/-- C3: evaluation of the two-invocation scenario at the failing state. The
first invocation of `sync` succeeds (clone, build, publish), and its effect
trace never creates the probed path, so — with the remote unchanged by
construction (`scRunCmd` differs between the worlds only in whether a clone
into the now-occupied root can succeed) — the second invocation takes the
clone path again: it issues `git clone` (which fails) instead of returning
the no-update outcome with zero filesystem mutation. -/
theorem C3_second_sync_reclones_instead_of_noop :
    (sync W1 oSc).1 = Except.ok ()
    ∧ fsAfterFirst.existing.contains (syncProbePath oSc) = false
    ∧ scRunCmd true "/git" "git" ["ls-remote", "-q", "origin", "refs/heads/master"]
        = scRunCmd false "/git" "git" ["ls-remote", "-q", "origin", "refs/heads/master"]
    ∧ (sync W2 oSc).1.isOk = false
    ∧ (sync W2 oSc).2.any isCloneCmd = true
    ∧ (sync W2 oSc).2.all (fun e => !(isLsRemoteCmd e)) = true := by decide

/-- C5 counterexample: for a ref absent on a reachable remote, `git ls-remote
-q` exits successfully with empty output, and `remoteHashForRef` returns a
success outcome carrying the empty string instead of failing. -/
theorem C5_counterexample :
    (remoteHashForRef wRefMissing "refs/tags/nosuchtag^\x7b\x7d" "/git").1 =
      Except.ok "" := by decide

/-- C5 (amended): `remoteHashForRef` fails exactly when the underlying
`ls-remote` invocation fails (as with an unreachable remote); whenever the
command succeeds it returns, without validation, the portion of the output
before the first tab — the empty string when the output is empty, as happens
for a ref that does not exist on the remote. -/
theorem C5_remoteHashForRef_characterization (w : World) (ref gitRoot : String) :
    (w.runCmd gitRoot "git" ["ls-remote", "-q", "origin", ref] = none →
      (remoteHashForRef w ref gitRoot).1.isOk = false)
    ∧ (∀ out, w.runCmd gitRoot "git" ["ls-remote", "-q", "origin", ref] = some out →
      (remoteHashForRef w ref gitRoot).1 =
        Except.ok ((splitOnChar '\t' out).headD "")) := by
  constructor
  · intro h
    unfold remoteHashForRef
    simp only [runCommand, h]
    simp [Except.isOk, Except.toBool]
  · intro out h
    unfold remoteHashForRef
    simp only [runCommand, h]

/-- Witness for C5 (amended): the unreachable-remote world fails, and the
missing-ref world returns the empty-string success. -/
theorem C5_witness :
    (remoteHashForRef wUnreachable "refs/heads/master" "/git").1.isOk = false
    ∧ (remoteHashForRef wRefMissing "refs/heads/master" "/git").1 =
        Except.ok ((splitOnChar '\t' "").headD "") :=
  ⟨(C5_remoteHashForRef_characterization wUnreachable "refs/heads/master" "/git").1
      (by decide),
   (C5_remoteHashForRef_characterization wRefMissing "refs/heads/master" "/git").2
      "" (by decide)⟩

/-- C7: whenever local resolution succeeds with identifier `h`, `revIsHash
rev` answers precisely whether `h` has `rev` as a literal string prefix; in
particular it answers true when `rev` already equals the resolved identifier,
and false when the resolved identifier does not begin with `rev` (as for a
branch or tag name resolving to an unrelated hash). -/
theorem C7_revIsHash_prefix_semantics (w : World) (o : SyncOption) (rev h : String)
    (hres : (hashForRev w o rev).1 = Except.ok h) :
    (revIsHash w o rev).1 = Except.ok (hasPrefixGo h rev)
    ∧ (hasPrefixGo h rev = true ↔ rev.toList <+: h.toList)
    ∧ (h = rev → (revIsHash w o rev).1 = Except.ok true)
    ∧ (¬ rev.toList <+: h.toList → (revIsHash w o rev).1 = Except.ok false) := by
  rcases hh : hashForRev w o rev with ⟨res, tr⟩
  rw [hh] at hres
  simp only at hres
  subst hres
  have h1 : (revIsHash w o rev).1 = Except.ok (hasPrefixGo h rev) := by
    unfold revIsHash
    rw [hh]
  have h2 : hasPrefixGo h rev = true ↔ rev.toList <+: h.toList := by
    unfold hasPrefixGo
    exact List.isPrefixOf_iff_prefix
  refine ⟨h1, h2, ?_, ?_⟩
  · intro heq
    subst heq
    rw [h1]
    have hself : hasPrefixGo h h = true := h2.mpr (List.prefix_refl _)
    rw [hself]
  · intro hnp
    rw [h1]
    have hfalse : hasPrefixGo h rev = false := by
      rcases Bool.eq_false_or_eq_true (hasPrefixGo h rev) with hb | hb
      · exact absurd (h2.mp hb) hnp
      · exact hb
    rw [hfalse]

/-- Witness for C7: the specifier `abc` locally resolves to `abcdef`, of which
it is a prefix, so `revIsHash` answers true. -/
theorem C7_witness :
    (revIsHash wLocalHash oHash "abc").1 = Except.ok (hasPrefixGo "abcdef" "abc")
    ∧ (hasPrefixGo "abcdef" "abc" = true ↔ "abc".toList <+: "abcdef".toList)
    ∧ ("abcdef" = "abc" → (revIsHash wLocalHash oHash "abc").1 = Except.ok true)
    ∧ (¬ "abc".toList <+: "abcdef".toList →
        (revIsHash wLocalHash oHash "abc").1 = Except.ok false) :=
  C7_revIsHash_prefix_semantics wLocalHash oHash "abc" "abcdef" (by decide)

/-- C10: the only remote query `getRevs` can make asks for the ref
`getRevsRef o`, which is `refs/heads/<branch>` exactly when the configured
revision is the string "HEAD" and the annotated-tag dereference
`refs/tags/<rev>` with a trailing caret-braces suffix otherwise, and which is
built from the configured revision field for every value of the `rev`
argument. -/
theorem C10_getRevs_ref_from_config (w : World) (o : SyncOption) (rev : String) :
    ((getRevs w o rev).2 =
        [Eff.cmd o.Root "git" ["rev-list", "-n1", rev] false]
      ∨ (getRevs w o rev).2 =
        [Eff.cmd o.Root "git" ["rev-list", "-n1", rev] true,
         Eff.cmd o.Root "git" ["ls-remote", "-q", "origin", getRevsRef o]
           (w.runCmd o.Root "git" ["ls-remote", "-q", "origin", getRevsRef o]).isSome])
    ∧ (o.Rev = "HEAD" → getRevsRef o = "refs/heads/" ++ o.Branch)
    ∧ (o.Rev ≠ "HEAD" → getRevsRef o = "refs/tags/" ++ o.Rev ++ "^\x7b\x7d") := by
  refine ⟨?_, ?_, ?_⟩
  · unfold getRevs hashForRev remoteHashForRef
    simp only [runCommand]
    rcases hrl : w.runCmd o.Root "git" ["rev-list", "-n1", rev] with _ | out1
    · left; simp
    · rcases hlr : w.runCmd o.Root "git" ["ls-remote", "-q", "origin", getRevsRef o]
        with _ | out2
      · right; simp [hlr]
      · right; simp [hlr]
  · intro hh; unfold getRevsRef; rw [if_pos hh]
  · intro hh; unfold getRevsRef; rw [if_neg hh]

/-- Witness for C10: with a tag configuration and a `rev` argument different
from the configured revision, the trace's only remote query still uses the
configured revision's tag-dereference ref; and the "HEAD" configuration
queries the branch head. -/
theorem C10_witness :
    ((getRevs wLocalHash oTag "zzz").2 =
        [Eff.cmd oTag.Root "git" ["rev-list", "-n1", "zzz"] false]
      ∨ (getRevs wLocalHash oTag "zzz").2 =
        [Eff.cmd oTag.Root "git" ["rev-list", "-n1", "zzz"] true,
         Eff.cmd oTag.Root "git" ["ls-remote", "-q", "origin", getRevsRef oTag]
           (wLocalHash.runCmd oTag.Root "git"
             ["ls-remote", "-q", "origin", getRevsRef oTag]).isSome])
    ∧ getRevsRef oTag = "refs/tags/v1.0^\x7b\x7d"
    ∧ getRevsRef oSc = "refs/heads/master" :=
  ⟨(C10_getRevs_ref_from_config wLocalHash oTag "zzz").1,
   (C10_getRevs_ref_from_config wLocalHash oTag "zzz").2.2 (by decide),
   (C10_getRevs_ref_from_config wLocalHash oSc "zzz").2.1 (by decide)⟩

/-- A loop iteration exits with status 0 only on the one-shot path: the flag
is set, the sync succeeded, and `revIsHash` reported false. -/
theorem mainStep_exitSuccess {maxF : Int} {oneTime : Bool} {s : LoopState}
    {i : IterIn} {c : Bool}
    (h : mainStep maxF oneTime s i = (LoopRes.exitSuccess, c)) :
    oneTime = true ∧ i.syncFails = false ∧ i.revHash = Except.ok false := by
  unfold mainStep at h
  by_cases hf : i.syncFails
  · simp only [hf, if_pos] at h
    split at h <;> simp_all
  · simp only [hf, if_neg, Bool.false_eq_true, not_false_eq_true] at h
    by_cases hi : s.initialSync
    · simp only [hi, if_pos] at h
      rcases hr : i.revHash with e | b
      · rw [hr] at h; simp_all
      · rw [hr] at h
        cases b
        · by_cases ho : oneTime
          · simp_all
          · simp_all
        · simp_all
    · simp_all

/-- After the initial sync, an iteration never consults `revIsHash`, and a
continuing iteration stays out of the initial-sync phase. -/
theorem mainStep_notInitial {maxF : Int} {oneTime : Bool} {s : LoopState}
    {i : IterIn} (hs : s.initialSync = false) :
    (mainStep maxF oneTime s i).2 = false
    ∧ ∀ s' c, mainStep maxF oneTime s i = (LoopRes.running s', c) →
        s'.initialSync = false := by
  unfold mainStep
  by_cases hf : i.syncFails
  · simp only [hf, if_pos, hs]
    by_cases hc : s.failCount ≥ maxF
    · simp [hc]
    · simp only [hc, if_neg, not_false_eq_true]
      refine ⟨by simp, ?_⟩
      intro s' c hh
      simp at hh
      rw [← hh.1]
  · simp only [hf, if_neg, hs, Bool.false_eq_true, not_false_eq_true]
    refine ⟨by simp, ?_⟩
    intro s' c hh
    simp at hh
    rw [← hh.1]

/-- A run that starts outside the initial-sync phase never consults
`revIsHash`. -/
theorem runLoop_count_zero {maxF : Int} {oneTime : Bool} :
    ∀ (inputs : List IterIn) (s : LoopState), s.initialSync = false →
      (runLoop maxF oneTime s inputs).2 = 0 := by
  intro inputs
  induction inputs with
  | nil => intro s hs; simp [runLoop]
  | cons i rest ih =>
    intro s hs
    unfold runLoop
    rcases hstep : mainStep maxF oneTime s i with ⟨res, c⟩
    have hc : c = false := by
      have := (@mainStep_notInitial maxF oneTime s i hs).1
      rw [hstep] at this
      exact this
    subst hc
    cases res with
    | running s' =>
      have hs' := (@mainStep_notInitial maxF oneTime s i hs).2
        s' false hstep
      simp [ih s' hs']
    | exitFailure => simp
    | exitSuccess => simp
    | park => simp

/-- A run exits with status 0 only when the one-shot flag is set and some
iteration synced successfully with `revIsHash` reporting false. -/
theorem runLoop_exitSuccess {maxF : Int} {oneTime : Bool} :
    ∀ (inputs : List IterIn) (s : LoopState),
      (runLoop maxF oneTime s inputs).1 = LoopRes.exitSuccess →
      oneTime = true ∧ ∃ i ∈ inputs, i.syncFails = false ∧ i.revHash = Except.ok false := by
  intro inputs
  induction inputs with
  | nil => intro s h; simp [runLoop] at h
  | cons i rest ih =>
    intro s h
    unfold runLoop at h
    rcases hstep : mainStep maxF oneTime s i with ⟨res, c⟩
    rw [hstep] at h
    cases res with
    | running s' =>
      simp only at h
      rcases ih s' h with ⟨ho, j, hj, hjp⟩
      exact ⟨ho, j, List.mem_cons_of_mem i hj, hjp⟩
    | exitFailure => simp at h
    | park => simp at h
    | exitSuccess =>
      rcases mainStep_exitSuccess hstep with ⟨ho, hf, hr⟩
      exact ⟨ho, i, List.mem_cons_self i rest, hf, hr⟩

/-- A run from the start state consults `revIsHash` at most once. -/
theorem runLoop_count_le_one {maxF : Int} {oneTime : Bool} :
    ∀ (inputs : List IterIn), (runLoop maxF oneTime loopStart inputs).2 ≤ 1 := by
  intro inputs
  cases inputs with
  | nil => simp [runLoop]
  | cons i rest =>
    unfold runLoop
    rcases hstep : mainStep maxF oneTime loopStart i with ⟨res, c⟩
    cases res with
    | running s' =>
      have hs' : s'.initialSync = false := by
        unfold mainStep at hstep
        by_cases hf : i.syncFails
        · simp only [hf, if_pos, loopStart] at hstep
          simp at hstep
        · simp only [hf, loopStart, if_neg, Bool.false_eq_true, not_false_eq_true] at hstep
          simp only [if_pos] at hstep
          rcases hr : i.revHash with e | b
          · rw [hr] at hstep; simp_all
          · rw [hr] at hstep
            cases b
            · by_cases ho : oneTime
              · simp_all
              · simp only [ho, if_neg, Bool.false_eq_true, not_false_eq_true] at hstep
                have := (Prod.mk.injEq _ _ _ _).mp hstep
                rcases this with ⟨h1, _⟩
                injection h1 with h1'
                rw [← h1']
            · simp_all
      simp only
      have hz := @runLoop_count_zero maxF oneTime rest s' hs'
      rw [hz]
      cases c <;> simp
    | exitFailure => simp only; cases c <;> simp
    | exitSuccess => simp only; cases c <;> simp
    | park => simp only; cases c <;> simp

/-- C6: before the first successful sync (the loop starts with `initialSync`
set), any sync failure exits the process with a failure status regardless of
the configured budget; after the first success (`initialSync` cleared), a
failing iteration exits exactly when the consecutive-failure count has reached
the budget and otherwise continues with the count incremented; and every
successful sync resets the count to zero, both in the steady state and when
leaving the initial sync. -/
theorem C6_main_loop_failure_budget (maxF : Int) (oneTime : Bool) :
    (∀ (i : IterIn) (rest : List IterIn), i.syncFails = true →
      (runLoop maxF oneTime loopStart (i :: rest)).1 = LoopRes.exitFailure)
    ∧ (∀ (s : LoopState) (i : IterIn), s.initialSync = false → i.syncFails = true →
        s.failCount ≥ maxF →
        mainStep maxF oneTime s i = (LoopRes.exitFailure, false))
    ∧ (∀ (s : LoopState) (i : IterIn), s.initialSync = false → i.syncFails = true →
        s.failCount < maxF →
        mainStep maxF oneTime s i =
          (LoopRes.running { initialSync := false, failCount := s.failCount + 1 }, false))
    ∧ (∀ (s : LoopState) (i : IterIn), s.initialSync = false → i.syncFails = false →
        (mainStep maxF oneTime s i).1 =
          LoopRes.running { initialSync := false, failCount := 0 })
    ∧ (∀ (i : IterIn), i.syncFails = false → i.revHash = Except.ok false →
        oneTime = false →
        mainStep maxF oneTime loopStart i =
          (LoopRes.running { initialSync := false, failCount := 0 }, true)) := by
  refine ⟨?_, ?_, ?_, ?_, ?_⟩
  · intro i rest hf
    unfold runLoop mainStep
    simp [hf, loopStart]
  · intro s i hs hf hc
    unfold mainStep
    simp [hf, hs, hc]
  · intro s i hs hf hc
    unfold mainStep
    simp [hf, hs, not_le.mpr hc, not_le_of_lt hc]
  · intro s i hs hf
    unfold mainStep
    simp [hf, hs]
  · intro i hf hr ho
    unfold mainStep
    simp [hf, hr, ho, loopStart]

/-- C9: after the first successful sync, when `revIsHash` reports true the
process parks waiting for a termination signal even when the one-shot flag is
set (the whole run ends in `park`); the one-shot exit with status 0 is reached
only when `revIsHash` reported false; `revIsHash` is consulted in an iteration
exactly when the sync succeeded during the initial-sync phase, never once that
phase is left, and at most once in any run from the start state. -/
theorem C9_immutable_rev_precedence (maxF : Int) (oneTime : Bool) :
    (∀ (s : LoopState) (i : IterIn) (rest : List IterIn),
      s.initialSync = true → i.syncFails = false → i.revHash = Except.ok true →
      runLoop maxF oneTime s (i :: rest) = (LoopRes.park, 1))
    ∧ (∀ (s : LoopState) (inputs : List IterIn),
        (runLoop maxF oneTime s inputs).1 = LoopRes.exitSuccess →
        oneTime = true ∧ ∃ i ∈ inputs, i.syncFails = false ∧ i.revHash = Except.ok false)
    ∧ (∀ (s : LoopState) (i : IterIn),
        (mainStep maxF oneTime s i).2 = true ↔
          i.syncFails = false ∧ s.initialSync = true)
    ∧ (∀ (s : LoopState) (inputs : List IterIn), s.initialSync = false →
        (runLoop maxF oneTime s inputs).2 = 0)
    ∧ (∀ (inputs : List IterIn), (runLoop maxF oneTime loopStart inputs).2 ≤ 1) := by
  refine ⟨?_, ?_, ?_, ?_, ?_⟩
  · intro s i rest hs hf hr
    unfold runLoop mainStep
    simp [hf, hs, hr]
  · intro s inputs h
    exact runLoop_exitSuccess inputs s h
  · intro s i
    constructor
    · intro h
      unfold mainStep at h
      by_cases hf : i.syncFails
      · simp only [hf, if_pos] at h
        split at h <;> simp_all
      · by_cases hi : s.initialSync
        · exact ⟨by simp [hf], hi⟩
        · simp [hf, hi] at h
    · rintro ⟨hf, hi⟩
      unfold mainStep
      simp only [hf, hi, if_neg, if_pos, Bool.false_eq_true, not_false_eq_true]
      rcases hr : i.revHash with e | b
      · simp
      · cases b
        · by_cases ho : oneTime <;> simp [ho]
        · simp
  · intro s inputs hs
    exact runLoop_count_zero inputs s hs
  · intro inputs
    exact runLoop_count_le_one inputs

/-- Witness for C6: with a failure budget of 5, a failure on the very first
iteration still exits the process. -/
theorem C6_witness :
    (runLoop 5 false loopStart
      [{ syncFails := true, revHash := Except.ok false }]).1 = LoopRes.exitFailure :=
  (C6_main_loop_failure_budget 5 false).1
    { syncFails := true, revHash := Except.ok false } [] rfl

/-- Witness for C9: with the one-shot flag set, a first successful sync whose
revision is a hash parks the run with exactly one consultation. -/
theorem C9_witness :
    runLoop 0 true loopStart
      [{ syncFails := false, revHash := Except.ok true },
       { syncFails := false, revHash := Except.ok false }] = (LoopRes.park, 1) :=
  (C9_immutable_rev_precedence 0 true).1 loopStart
    { syncFails := false, revHash := Except.ok true }
    [{ syncFails := false, revHash := Except.ok false }] rfl rfl rfl

end GitSync
